import Mathlib

set_option maxRecDepth 100000

/-!
Verification development for the Universe-25 population simulator
(`src/frontend/src/lib/RandomSeeder.ts`: the `RandomSeeder` class and the
`SimulationEngine` class).

Shallow embedding conventions:
* JavaScript numbers are modelled as `ℚ`.  Every arithmetic operation the
  engine performs on them (`+`, `-`, `*`, `/`, `Math.min`, `Math.max`) is
  exact on `ℚ`; floating-point rounding is not modelled.
* `Math.sqrt` is modelled by `sqrtQ`, which is exact on rationals that have a
  rational square root and returns `0` elsewhere.  Every concrete state
  evaluated in this file only takes square roots of perfect squares, and the
  universally quantified theorems below are insensitive to the value returned
  on non-squares (they case-split on the comparisons instead of computing
  them).  The same convention is used for `Math.cos`/`Math.sin` of the angle
  `2·π·r` (`cosTwoPi`, `sinTwoPi`, exact at quarter turns).
* The ambient, unseeded `Math.random` is modelled as a stream `ℕ → ℚ`
  together with a cursor (`RS`); each call to `Math.random()` reads the
  stream at the cursor and advances it.  The engine's own seeded generator
  (`RandomSeeder`, mulberry32) is modelled by `mulberry32` and the `seed`
  field of `Engine`.
* Mutation of the agent array / resource array is modelled by explicit
  `List.set`; `Array.push` during iteration appends at the end, and the
  `forEach` loop of `update()` iterates over the index range fixed before the
  loop starts (JavaScript `forEach` does not visit elements appended during
  iteration).
* The `window.innerWidth`/`window.innerHeight` globals read by the movement
  code are modelled as the `winW`/`winH` fields of `Engine` (constant during
  a run).
-/

namespace Universe25

/-- Newton iteration for the integer square root, fuelled so that it is
structurally recursive (the classic `Nat.sqrt` algorithm; `Nat.sqrt` itself is
defined by well-founded recursion, which the kernel cannot evaluate). -/
def isqrtGo (n : ℕ) : ℕ → ℕ → ℕ
  | 0, g => g
  | fuel + 1, g =>
    let g' := (g + n / g) / 2
    if g' < g then isqrtGo n fuel g' else g

/-- Integer square root (floor), kernel-evaluable. -/
def isqrt (n : ℕ) : ℕ := if n ≤ 1 then n else isqrtGo n n (n / 2 + 1)

/-- Exact rational square root: `sqrtQ q = r` when `r ≥ 0` and `r * r = q` has a
rational solution, and `0` otherwise.  Models `Math.sqrt`; see the header for
the convention. -/
def sqrtQ (q : ℚ) : ℚ :=
  let n := isqrt q.num.toNat
  let d := isqrt q.den
  if 0 ≤ q ∧ (n * n : ℤ) = q.num ∧ (d * d : ℕ) = q.den then (n : ℚ) / (d : ℚ) else 0

/-- `Math.sqrt(dx*dx + dy*dy)`: the Euclidean distance expression the engine
computes (the source writes it with `Math.pow(_, 2)`). -/
def distQ (dx dy : ℚ) : ℚ := sqrtQ (dx * dx + dy * dy)

/-- `Math.max` rendered as an explicit comparison.  (The ambient `Max ℚ`
instance comes from Mathlib's order hierarchy and does not kernel-evaluate;
this definition is extensionally the same function, see `qmax_eq_max`.) -/
def qmax (a b : ℚ) : ℚ := if a ≤ b then b else a

/-- `Math.min` rendered as an explicit comparison (see `qmax`). -/
def qmin (a b : ℚ) : ℚ := if a ≤ b then a else b

/-- `Math.cos(r * Math.PI * 2)` for a draw `r`: exact at quarter turns,
`0` elsewhere (see the header). -/
def cosTwoPi (r : ℚ) : ℚ :=
  if r = 0 then 1 else if r = 1/2 then -1 else 0

/-- `Math.sin(r * Math.PI * 2)` for a draw `r`: exact at quarter turns,
`0` elsewhere (see the header). -/
def sinTwoPi (r : ℚ) : ℚ :=
  if r = 1/4 then 1 else if r = 3/4 then -1 else 0

/-- The ambient `Math.random` source: an infinite stream of draws and a cursor.
`Math.random()` is unseeded and engine-external; it is distinct from the
engine's `RandomSeeder`. -/
structure RS where
  r : ℕ → ℚ
  k : ℕ

/-- One call to `Math.random()`: read the stream at the cursor, advance. -/
def RS.next (s : RS) : ℚ × RS := (s.r s.k, ⟨s.r, s.k + 1⟩)

/-- One step of `RandomSeeder.random()` (mulberry32).  The JS field `seed` is a
float accumulated without wraparound (`this.seed += 0x6D2B79F5`); the 32-bit
wraparound happens at the bitwise operators and `Math.imul`, which this
definition makes explicit with `% 2^32` (the unsigned view; JS signed int32
values are congruent mod `2^32`).  Returns the new accumulated seed and the
draw in `[0,1)`.  `update()` never invokes this generator: it is used only
when the engine places initial resources and agents. -/
def mulberry32 (seed : ℕ) : ℕ × ℚ :=
  let seed' := seed + 0x6D2B79F5
  let u := seed' % 4294967296
  let t1 := u ^^^ (u >>> 15)
  let t2 := (t1 * (t1 ||| 1)) % 4294967296
  let t3 := t2 ^^^ ((t2 + ((t2 ^^^ (t2 >>> 7)) * (t2 ||| 61)) % 4294967296) % 4294967296)
  let out := t3 ^^^ (t3 >>> 14)
  (seed', (out : ℚ) / 4294967296)

inductive Sex where
  | male
  | female
deriving DecidableEq, Repr

inductive AgentState where
  | exploring
  | eating
  | mating
  | resting
deriving DecidableEq, Repr

/-- The `Agent` interface.  `socialConnections` (a JS `Set<number>`) is a
duplicate-free list in insertion order; `birthTick` is always assigned
(`birthTick: this.tick`) but the engine tests it with JS truthiness, so the
value `0` (initial population) behaves like "absent". -/
structure Agent where
  id : ℕ
  x : ℚ
  y : ℚ
  age : ℚ
  hunger : ℚ
  energy : ℚ
  state : AgentState
  symbol : String
  color : String
  targetX : Option ℚ
  targetY : Option ℚ
  stressLevel : ℚ
  socialConnections : List ℕ
  birthTick : ℕ
  parentIds : Option (ℕ × ℕ)
  sex : Sex
  directionX : ℚ
  directionY : ℚ
deriving DecidableEq, Repr

structure Resource where
  x : ℚ
  y : ℚ
  amount : ℚ
  maxAmount : ℚ
  regenerationRate : ℚ
deriving DecidableEq, Repr

structure SimulationParams where
  initialPopulation : ℕ
  resourceCapacity : ℚ
  birthRate : ℚ
  timeScale : ℚ
  resourceSpots : ℕ
  resourceRegenerationRate : ℚ
deriving DecidableEq, Repr

/-- `DeathStats`.  The cause counters only ever increment; `total` is
reassigned from scratch every tick (`nextId - agents.length`), so it is
modelled as `ℤ`. -/
structure DeathStats where
  starvation : ℕ
  oldAge : ℕ
  stress : ℕ
  total : ℤ
deriving DecidableEq, Repr

/-- The `SimulationEngine` private state.  `seed` is the accumulated
`RandomSeeder` seed; `winW`/`winH` model the `window` globals. -/
structure Engine where
  agents : List Agent
  resources : List Resource
  tick : ℕ
  params : SimulationParams
  nextId : ℕ
  deathStats : DeathStats
  seed : ℕ
  winW : ℚ
  winH : ℚ
deriving DecidableEq, Repr

/-- `agent.sex === 'male' ? '#4444FF' : '#FF4444'`. -/
def sexColor : Sex → String
  | Sex.male => "#4444FF"
  | Sex.female => "#FF4444"

/-- `agent.sex === 'male' ? '♂' : '♀'`. -/
def sexSymbol : Sex → String
  | Sex.male => "♂"
  | Sex.female => "♀"

/-- The newborn color string `hsl(${(this.tick - agent.birthTick) * 6}, 100%, 70%)`. -/
def graceColor (tick : ℕ) (birthTick : ℕ) : String :=
  "hsl(" ++ toString (((tick : ℤ) - (birthTick : ℤ)) * 6) ++ ", 100%, 70%)"

/-- Write the agent stored at index `i` (mutation of `this.agents[i]` through
the element reference). -/
def setAgent (e : Engine) (i : ℕ) (a : Agent) : Engine :=
  { e with agents := e.agents.set i a }

/-- `Set.add` on `socialConnections`: insert if not present. -/
def addConn (l : List ℕ) (n : ℕ) : List ℕ :=
  if n ∈ l then l else l ++ [n]

/-- `nearbyAgents.length` in `updateAgentState`: the number of other agents
within distance 50. -/
def nearbyCount (e : Engine) (a : Agent) : ℕ :=
  (e.agents.filter fun o =>
    decide (o.id ≠ a.id ∧ distQ (o.x - a.x) (o.y - a.y) < 50)).length

/-- The `reduce` of `findNearestResource`, with the original index of each
resource carried along (mutating the returned resource object is modelled by
writing back at that index).  Resources with `amount ≤ 0` are filtered out;
ties keep the first-encountered resource (the comparison is strict). -/
def findNearestGo (ax ay : ℚ) :
    List Resource → ℕ → Option (ℕ × Resource × ℚ) → Option (ℕ × Resource × ℚ)
  | [], _, acc => acc
  | r :: rest, i, acc =>
    let acc' :=
      if 0 < r.amount then
        let d := distQ (r.x - ax) (r.y - ay)
        match acc with
        | none => some (i, r, d)
        | some (j, r0, d0) => if d < d0 then some (i, r, d) else some (j, r0, d0)
      else acc
    findNearestGo ax ay rest (i + 1) acc'

/-- `findNearestResource(agent)`, returning the index of the nearest
positive-amount resource together with its value. -/
def findNearestIdx (e : Engine) (ax ay : ℚ) : Option (ℕ × Resource) :=
  (findNearestGo ax ay e.resources 0 none).map fun t => (t.1, t.2.1)

/-- `createAgent(parentA, parentB)` for the parented (offspring) branch: the
only branch `update()` can reach.  (The parameterless branch is used during
initialization and draws its position from the seeded generator.)  Draw order:
offset x, offset y, angle, sex.  Initial `symbol`/`color` (`'@'`, `'#4CAF50'`)
are immediately overwritten by the sex-based values.  Returns the engine with
the newborn pushed, the newborn, and the advanced stream. -/
def createOffspring (e : Engine) (pA pB : Agent) (rs : RS) : Engine × Agent × RS :=
  let (rox, rs1) := rs.next
  let (roy, rs2) := rs1.next
  let px := (pA.x + pB.x) / 2 + (rox - 0.5) * 40
  let py := (pA.y + pB.y) / 2 + (roy - 0.5) * 40
  let (rang, rs3) := rs2.next
  let (rsex, rs4) := rs3.next
  let sx := if rsex < 0.5 then Sex.male else Sex.female
  let a0 : Agent :=
    { id := e.nextId, x := px, y := py, age := 0, hunger := 50, energy := 100,
      state := AgentState.exploring, symbol := sexSymbol sx, color := sexColor sx,
      targetX := none, targetY := none, stressLevel := 0, socialConnections := [],
      birthTick := e.tick, parentIds := some (pA.id, pB.id), sex := sx,
      directionX := cosTwoPi rang * 2, directionY := sinTwoPi rang * 2 }
  let a1 :=
    match findNearestIdx e a0.x a0.y with
    | some (_, r) =>
      { a0 with state := AgentState.eating, targetX := some r.x, targetY := some r.y }
    | none => a0
  ({ e with agents := e.agents ++ [a1], nextId := e.nextId + 1 }, a1, rs4)

/-- The inlined physiological-decay block at the top of the per-agent loop in
`update()`: `age += t; hunger += 0.2*t; energy = max(0, energy - 0.08*t)`. -/
def decayStep (t : ℚ) (e : Engine) (i : ℕ) : Engine :=
  match e.agents[i]? with
  | none => e
  | some a =>
    setAgent e i
      { a with age := a.age + t, hunger := a.hunger + 0.2 * t,
               energy := qmax 0 (a.energy - 0.08 * t) }

/-- `updateAgentState(agent)`: stress accumulation, the newborn early return,
the 60-tick color reset, and the behavioral-state switch. -/
def updateAgentState (e : Engine) (i : ℕ) : Engine :=
  match e.agents[i]? with
  | none => e
  | some a =>
    let a1 := { a with stressLevel := qmin 100 (a.stressLevel + (nearbyCount e a : ℚ) * 0.01) }
    if a.birthTick ≠ 0 ∧ (e.tick : ℤ) - (a.birthTick : ℤ) < 60 then
      setAgent e i { a1 with color := graceColor e.tick a.birthTick }
    else
      let a2 :=
        { a1 with color :=
            if a.birthTick ≠ 0 ∧ (e.tick : ℤ) - (a.birthTick : ℤ) = 60 then sexColor a.sex
            else a1.color }
      match a.state with
      | AgentState.exploring =>
        if 70 < a.hunger then
          match findNearestIdx e a.x a.y with
          | some (_, r) =>
            setAgent e i
              { a2 with state := AgentState.eating, targetX := some r.x,
                        targetY := some r.y, color := "#FFE837" }
          | none => setAgent e i a2
        else if a.energy < 20 then
          setAgent e i { a2 with state := AgentState.resting, color := "#C875FF" }
        else if a.hunger < 50 ∧ 50 < a.energy then
          setAgent e i { a2 with state := AgentState.mating, color := "#FF71B3" }
        else setAgent e i a2
      | AgentState.eating =>
        (match findNearestIdx e a.x a.y with
        | some (j, r) =>
          if distQ (r.x - a.x) (r.y - a.y) < 5 then
            let consumed := qmin r.amount 20
            let e1 := { e with resources := e.resources.set j { r with amount := r.amount - consumed } }
            let a3 := { a2 with hunger := qmax 0 (a2.hunger - consumed),
                                energy := qmin 100 (a2.energy + consumed * 0.8) }
            if a3.hunger < 30 then
              setAgent e1 i
                { a3 with state := AgentState.exploring, targetX := none,
                          targetY := none, color := sexColor a3.sex }
            else setAgent e1 i a3
          else setAgent e i a2
        | none => setAgent e i a2)
      | AgentState.resting =>
        let a3 := { a2 with energy := a2.energy + 3 }
        if 80 < a3.energy then
          setAgent e i { a3 with state := AgentState.exploring, color := sexColor a3.sex }
        else setAgent e i a3
      | AgentState.mating => setAgent e i a2

/-- `updateAgentMovement(agent, timeScale)`: target pursuit or free wander with
boundary reflection.  Draw order in the wander branch: direction-change test,
(angle, speed magnitude when taken), x jitter, y jitter, x boundary jitter
(only on reflection), y boundary jitter (only on reflection). -/
def updateAgentMovement (e : Engine) (i : ℕ) (t : ℚ) (rs : RS) : Engine × RS :=
  match e.agents[i]? with
  | none => (e, rs)
  | some a =>
    if a.state = AgentState.resting then (e, rs)
    else
      match a.targetX, a.targetY with
      | some tx, some ty =>
        let dx := tx - a.x
        let dy := ty - a.y
        let d := distQ dx dy
        if d < 2 then (setAgent e i { a with targetX := none, targetY := none }, rs)
        else
          let baseSpeed : ℚ := if a.state = AgentState.eating then 3 else 2
          let speed := baseSpeed * t
          (setAgent e i { a with x := a.x + dx / d * speed, y := a.y + dy / d * speed }, rs)
      | _, _ =>
        let (r1, rs1) := rs.next
        let (a1, rs2) :=
          if r1 < 0.05 * t then
            let (r2, rsA) := rs1.next
            let (r3, rsB) := rsA.next
            let spd := (0.5 + r3 * 0.5) * t
            ({ a with directionX := cosTwoPi r2 * spd, directionY := sinTwoPi r2 * spd }, rsB)
          else (a, rs1)
        let (r4, rs3) := rs2.next
        let (r5, rs4) := rs3.next
        let a2 := { a1 with x := a1.x + (a1.directionX + (r4 - 0.5) * 0.2) * t,
                            y := a1.y + (a1.directionY + (r5 - 0.5) * 0.2) * t }
        let (a3, rs5) :=
          if a2.x ≤ 0 ∨ e.winW ≤ a2.x then
            let (r6, rsA) := rs4.next
            ({ a2 with directionX := -a2.directionX + (r6 - 0.5) * 0.2 * t,
                       x := qmax 0 (qmin e.winW a2.x) }, rsA)
          else (a2, rs4)
        let (a4, rs6) :=
          if a3.y ≤ 0 ∨ e.winH ≤ a3.y then
            let (r7, rsA) := rs5.next
            ({ a3 with directionY := -a3.directionY + (r7 - 0.5) * 0.2 * t,
                       y := qmax 0 (qmin e.winH a3.y) }, rsA)
          else (a3, rs5)
        (setAgent e i a4, rs6)

/-- The eligibility filter of `checkMatingCollisions`: different id, partner in
`mating` state, opposite sex, partner energy above 30, distance below 30. -/
def eligibleMate (a b : Agent) : Bool :=
  decide (b.id ≠ a.id ∧ b.state = AgentState.mating ∧ b.sex ≠ a.sex ∧
    30 < b.energy ∧ distQ (b.x - a.x) (b.y - a.y) < 30)

/-- `potentialMates` as the list of indices of eligible partners, in population
storage order. -/
def potentialMatesIdx (e : Engine) (i : ℕ) : List ℕ :=
  match e.agents[i]? with
  | none => []
  | some a =>
    (List.range e.agents.length).filter fun j =>
      match e.agents[j]? with
      | some b => eligibleMate a b
      | none => false

/-- The body executed by `checkMatingCollisions` when the per-candidate draw
succeeds: create the offspring, reset both parents to `exploring`, record
social connections, debit `10 * timeScale` energy from each parent (floored at
0), and retarget each parent toward its nearest resource (flipping it to
`eating`) if one exists. -/
def matingSuccess (e : Engine) (i j : ℕ) (rs : RS) : Engine × RS :=
  match e.agents[i]?, e.agents[j]? with
  | some a, some m =>
    let (e1, nb, rs1) := createOffspring e a m rs
    let cost := 10 * e.params.timeScale
    let a1 := { a with state := AgentState.exploring, color := sexColor a.sex,
                       socialConnections := addConn (addConn a.socialConnections m.id) nb.id,
                       energy := qmax 0 (a.energy - cost) }
    let m1 := { m with state := AgentState.exploring, color := sexColor m.sex,
                       socialConnections := addConn (addConn m.socialConnections a.id) nb.id,
                       energy := qmax 0 (m.energy - cost) }
    let a2 :=
      match findNearestIdx e1 a1.x a1.y with
      | some (_, r) =>
        { a1 with state := AgentState.eating, targetX := some r.x, targetY := some r.y }
      | none => a1
    let m2 :=
      match findNearestIdx e1 m1.x m1.y with
      | some (_, r) =>
        { m1 with state := AgentState.eating, targetX := some r.x, targetY := some r.y }
      | none => m1
    ({ e1 with agents := (e1.agents.set i a2).set j m2 }, rs1)
  | _, _ => (e, rs)

/-- The `for (const potentialMate of potentialMates)` loop: one draw per
candidate, in order; the first draw below `birthRate` triggers
`matingSuccess` and breaks; failures leave the engine untouched. -/
def mateLoop (e : Engine) (i : ℕ) : List ℕ → RS → Engine × RS
  | [], rs => (e, rs)
  | j :: rest, rs =>
    let (v, rs1) := rs.next
    if v < e.params.birthRate then matingSuccess e i j rs1
    else mateLoop e i rest rs1

/-- `checkMatingCollisions(agent)`: early return unless the agent is in
`mating`; then the candidate loop, then the per-tick abandonment draw
(`< 0.005 * timeScale` flips the agent back to `exploring`, even when mating
just succeeded). -/
def checkMatingCollisions (e : Engine) (i : ℕ) (rs : RS) : Engine × RS :=
  match e.agents[i]? with
  | none => (e, rs)
  | some a =>
    if a.state ≠ AgentState.mating then (e, rs)
    else
      let (e1, rs1) := mateLoop e i (potentialMatesIdx e i) rs
      let (v, rs2) := rs1.next
      if v < 0.005 * e.params.timeScale then
        match e1.agents[i]? with
        | some a1 => (setAgent e1 i { a1 with state := AgentState.exploring, color := sexColor a1.sex }, rs2)
        | none => (e1, rs2)
      else (e1, rs2)

/-- The opportunistic consumption block at the end of the per-agent loop in
`update()`: any agent within distance 5 of its nearest positive resource
consumes up to `15 * timeScale`, reducing hunger 1:1 (floored at 0) and
gaining energy at 0.8 per unit (capped at 100). -/
def consumeStep (t : ℚ) (e : Engine) (i : ℕ) : Engine :=
  match e.agents[i]? with
  | none => e
  | some a =>
    match findNearestIdx e a.x a.y with
    | some (j, r) =>
      if distQ (r.x - a.x) (r.y - a.y) < 5 then
        let consumed := qmin r.amount (15 * t)
        let e1 := { e with resources := e.resources.set j { r with amount := r.amount - consumed } }
        setAgent e1 i { a with hunger := qmax 0 (a.hunger - consumed),
                               energy := qmin 100 (a.energy + consumed * 0.8) }
      else e
    | none => e

/-- The stress-decay block at the end of the per-agent loop:
`if stressLevel > 0 then stressLevel = max(0, stressLevel - 0.2*t)`. -/
def stressStep (t : ℚ) (e : Engine) (i : ℕ) : Engine :=
  match e.agents[i]? with
  | none => e
  | some a =>
    if 0 < a.stressLevel then
      setAgent e i { a with stressLevel := qmax 0 (a.stressLevel - 0.2 * t) }
    else e

/-- One iteration of the per-agent `forEach` body in `update()`: decay, state
transition, movement, mating-collision check, opportunistic consumption and
stress decay — all six for agent `i` before the loop moves on. -/
def perAgentStep (t : ℚ) (st : Engine × RS) (i : ℕ) : Engine × RS :=
  let e1 := decayStep t st.1 i
  let e2 := updateAgentState e1 i
  let (e3, rs1) := updateAgentMovement e2 i t st.2
  let (e4, rs2) := checkMatingCollisions e3 i rs1
  let e5 := consumeStep t e4 i
  (stressStep t e5 i, rs2)

/-- The resource-regeneration pass:
`amount = min(maxAmount, amount + regenerationRate * 3 * timeScale)`. -/
def regenAll (e : Engine) (t : ℚ) : Engine :=
  { e with resources := e.resources.map fun r =>
      { r with amount := qmin r.maxAmount (r.amount + r.regenerationRate * 3 * t) } }

/-- The mortality sweep at the end of `update()`: collect agents satisfying any
death condition, bump each cause counter once per dead agent satisfying that
cause, keep the complement, and recompute `total` as
`nextId - agents.length`. -/
def sweepDeaths (e : Engine) : Engine :=
  let dead : List Agent := e.agents.filter fun a =>
    decide (2000 ≤ a.age ∨ 100 ≤ a.hunger ∨ 100 ≤ a.stressLevel)
  let ds := e.deathStats
  let ds1 :=
    { ds with starvation := ds.starvation + (dead.filter fun (a : Agent) => decide (100 ≤ a.hunger)).length,
              oldAge := ds.oldAge + (dead.filter fun (a : Agent) => decide (2000 ≤ a.age)).length,
              stress := ds.stress + (dead.filter fun (a : Agent) => decide (100 ≤ a.stressLevel)).length }
  let alive := e.agents.filter fun a =>
    decide (a.age < 2000 ∧ a.hunger < 100 ∧ a.stressLevel < 100)
  { e with agents := alive,
           deathStats := { ds1 with total := (e.nextId : ℤ) - (alive.length : ℤ) } }

/-- `update()`: tick increment, resource regeneration, the fused per-agent
loop over the index range fixed before the loop (newborns pushed during the
loop are not visited), then the mortality sweep. -/
def update (e : Engine) (rs : RS) : Engine × RS :=
  let e0 := { e with tick := e.tick + 1 }
  let t := e0.params.timeScale
  let e1 := regenAll e0 t
  let st := (List.range e1.agents.length).foldl (perAgentStep t) (e1, rs)
  (sweepDeaths st.1, st.2)

/-- The per-agent `(id, x, y, state)` snapshot list read by external
collaborators. -/
def snapshots (e : Engine) : List (ℕ × ℚ × ℚ × AgentState) :=
  e.agents.map fun a => (a.id, a.x, a.y, a.state)

/-- The snapshot sequence produced by `N` consecutive `update()` calls. -/
def runN : ℕ → Engine → RS → List (List (ℕ × ℚ × ℚ × AgentState))
  | 0, _, _ => []
  | n + 1, e, rs =>
    let (e1, rs1) := update e rs
    snapshots e1 :: runN n e1 rs1

/-- The aggregate statistics record returned by `getStats()` (the `byState`
JS record is modelled as four counters). -/
structure SimStats where
  population : ℕ
  tick : ℕ
  births : ℕ
  deaths : DeathStats
  exploringCount : ℕ
  eatingCount : ℕ
  matingCount : ℕ
  restingCount : ℕ
  avgStress : ℚ
  avgHunger : ℚ
  avgEnergy : ℚ
  totalResources : ℚ
deriving DecidableEq, Repr

/-- `getStats()`: pull-based aggregation; the average divisors are
`(this.agents.length || 1)`, i.e. `1` when the population is empty. -/
def getStats (e : Engine) : SimStats :=
  let n := e.agents.length
  let divisor : ℚ := if n = 0 then 1 else (n : ℚ)
  { population := n,
    tick := e.tick,
    births := e.nextId,
    deaths := e.deathStats,
    exploringCount := (e.agents.filter fun a => decide (a.state = AgentState.exploring)).length,
    eatingCount := (e.agents.filter fun a => decide (a.state = AgentState.eating)).length,
    matingCount := (e.agents.filter fun a => decide (a.state = AgentState.mating)).length,
    restingCount := (e.agents.filter fun a => decide (a.state = AgentState.resting)).length,
    avgStress := (e.agents.foldl (fun (s : ℚ) (a : Agent) => s + a.stressLevel) 0) / divisor,
    avgHunger := (e.agents.foldl (fun (s : ℚ) (a : Agent) => s + a.hunger) 0) / divisor,
    avgEnergy := (e.agents.foldl (fun (s : ℚ) (a : Agent) => s + a.energy) 0) / divisor,
    totalResources := e.resources.foldl (fun (s : ℚ) (r : Resource) => s + r.amount) 0 }

/-- Modelled from the spec: the whole-population phase order claimed in §2/§5
("resource regeneration → per-agent physiological decay → per-agent
behavior-state transition → per-agent movement → per-agent mating-collision
check → per-agent resource consumption → stress decay → mortality sweep",
each phase visiting the whole population in storage order before the next
phase starts).  Built from the same per-agent step functions as `update` so
the two differ only in iteration structure. -/
def phaseFold (f : Engine × RS → ℕ → Engine × RS) (st : Engine × RS) : Engine × RS :=
  (List.range st.1.agents.length).foldl f st

/-- Modelled from the spec: `update()` as the spec's §2/§5 whole-population
phase sequence (see `phaseFold`).  Used to compare the claimed phase order
with the engine's actual fused per-agent loop. -/
def updatePhased (e : Engine) (rs : RS) : Engine × RS :=
  let e0 := { e with tick := e.tick + 1 }
  let t := e0.params.timeScale
  let e1 := regenAll e0 t
  let st1 := phaseFold (fun st i => (decayStep t st.1 i, st.2)) (e1, rs)
  let st2 := phaseFold (fun st i => (updateAgentState st.1 i, st.2)) st1
  let st3 := phaseFold (fun st i => updateAgentMovement st.1 i t st.2) st2
  let st4 := phaseFold (fun st i => checkMatingCollisions st.1 i st.2) st3
  let st5 := phaseFold (fun st i => (consumeStep t st.1 i, st.2)) st4
  let st6 := phaseFold (fun st i => (stressStep t st.1 i, st.2)) st5
  (sweepDeaths st6.1, st6.2)

/-- The deterministic candidate-selection function the mating loop implements:
scan the candidates in order, drawing one stream value per candidate starting
at cursor `k`; return the first candidate whose draw is below `br`, together
with the cursor position after its draw. -/
def chosenMate (br : ℚ) (r : ℕ → ℚ) : ℕ → List ℕ → Option (ℕ × ℕ)
  | _, [] => none
  | k, j :: rest => if r k < br then some (j, k + 1) else chosenMate br r (k + 1) rest

/-! ### Invariant predicates used by the theorems -/

/-- The per-agent numeric bounds the engine actually maintains through one
tick: hunger and stress are nonnegative, energy lies in `[0, 103]`, and an
agent currently in `resting` has energy at most 100 (it entered `resting`
below 20 and leaves as soon as the `+3` increment pushes it over 80, so the
only way past 100 is the opportunistic-consumption cap of 100 followed by one
more `+3`). -/
def AgentInv (a : Agent) : Prop :=
  0 ≤ a.hunger ∧ 0 ≤ a.energy ∧ a.energy ≤ 103 ∧ 0 ≤ a.stressLevel ∧
    (a.state = AgentState.resting → a.energy ≤ 100)

/-- The spec's §3 agent ranges: `hunger`, `energy`, `stressLevel` all within
`[0, 100]`. -/
def AgentInRange (a : Agent) : Prop :=
  0 ≤ a.hunger ∧ a.hunger ≤ 100 ∧ 0 ≤ a.energy ∧ a.energy ≤ 100 ∧
    0 ≤ a.stressLevel ∧ a.stressLevel ≤ 100

/-- The spec's §3 resource ranges, together with a nonnegative regeneration
rate (the configuration contract gives `resourceRegenerationRate ∈ [0,1]`). -/
def ResourceInv (r : Resource) : Prop :=
  0 ≤ r.amount ∧ r.amount ≤ r.maxAmount ∧ 0 ≤ r.regenerationRate

/-- The engine-wide invariant threaded through the per-agent loop. -/
def StateInv (e : Engine) : Prop :=
  (∀ a ∈ e.agents, AgentInv a) ∧ ∀ r ∈ e.resources, ResourceInv r

/-! ### Concrete configurations and streams used by the witnesses and
counterexamples -/

/-- A healthy adult test agent at position (100, 100). -/
def mkAgent (i : ℕ) : Agent :=
  { id := i, x := 100, y := 100, age := 0, hunger := 50, energy := 60,
    state := AgentState.exploring, symbol := "♂", color := "#4444FF",
    targetX := none, targetY := none, stressLevel := 0, socialConnections := [],
    birthTick := 0, parentIds := none, sex := Sex.male,
    directionX := 0, directionY := 0 }

def emptyDeaths : DeathStats := { starvation := 0, oldAge := 0, stress := 0, total := 0 }

def baseParams : SimulationParams :=
  { initialPopulation := 2, resourceCapacity := 100, birthRate := 1/2,
    timeScale := 1, resourceSpots := 1, resourceRegenerationRate := 0 }

/-- An ambient stream that always draws 1/2: no direction change
(`1/2 ≥ 0.05`), zero wander jitter (`(1/2 - 1/2) * 0.2 = 0`), no mating
abandonment. -/
def rHalf : RS := ⟨fun _ => 1/2, 0⟩

/-- An ambient stream that always draws 9/10: no direction change, but wander
jitter `(9/10 - 1/2) * 0.2 = 0.08` per axis. -/
def rNine : RS := ⟨fun _ => 9/10, 0⟩

/-- A stream pointwise equal to `rHalf` but not syntactically identical. -/
def rHalfAlt : RS := ⟨fun n => 1/2 + 0 * (n : ℚ), 0⟩

/-- First draw 9/10 (fails a birth-rate check of 1/2), every later draw 1/10
(succeeds). -/
def rC5 : RS := ⟨fun n => if n = 0 then 9/10 else 1/10, 0⟩

/-- One healthy wandering agent, no resources: used to exhibit dependence of
`update()` on the ambient `Math.random` stream at a fixed seed. -/
def eC1 : Engine :=
  { agents := [mkAgent 0], resources := [], tick := 0, params := baseParams,
    nextId := 1, deathStats := emptyDeaths, seed := 12345, winW := 1000, winH := 1000 }

/-- Time-scale 2, one agent resting at energy 100 (all fields inside the
spec's `[0,100]` ranges): one tick pushes its energy to 102.84. -/
def eC2cex : Engine :=
  { agents := [{ mkAgent 0 with state := AgentState.resting, energy := 100, hunger := 10 }],
    resources := [], tick := 0, params := { baseParams with timeScale := 2 },
    nextId := 1, deathStats := emptyDeaths, seed := 1, winW := 1000, winH := 1000 }

/-- Two agents sharing the position of a 15-unit resource.  Agent 0 (storage
order first) drains the resource in its consumption step; agent 1's
state-transition query then finds no positive resource under the fused
per-agent loop, but does find it under the spec's whole-population phase
order. -/
def eC3cex : Engine :=
  { agents := [{ mkAgent 0 with hunger := 60, energy := 60 },
               { mkAgent 1 with hunger := 80, energy := 50 }],
    resources := [{ x := 100, y := 100, amount := 15, maxAmount := 15, regenerationRate := 0 }],
    tick := 0, params := baseParams, nextId := 2,
    deathStats := emptyDeaths, seed := 1, winW := 1000, winH := 1000 }

/-- A single-agent engine (used to check that the fused loop and the phased
order agree on singleton populations). -/
def eC3single : Engine :=
  { agents := [{ mkAgent 0 with hunger := 80, energy := 40 }],
    resources := [{ x := 100, y := 100, amount := 15, maxAmount := 15, regenerationRate := 0 }],
    tick := 0, params := baseParams, nextId := 1,
    deathStats := emptyDeaths, seed := 1, winW := 1000, winH := 1000 }

/-- A resting newborn agent (born at tick 1). -/
def aC4 : Agent := { mkAgent 0 with state := AgentState.resting, energy := 50, birthTick := 1 }

/-- A resting newborn (born at tick 1, current tick 2). -/
def eC4new : Engine :=
  { agents := [aC4], resources := [], tick := 2, params := baseParams,
    nextId := 1, deathStats := emptyDeaths, seed := 1, winW := 1000, winH := 1000 }

/-- The same resting agent with `birthTick = 0` (not a newborn). -/
def eC4old : Engine :=
  { agents := [{ mkAgent 0 with state := AgentState.resting, energy := 50, birthTick := 0 }],
    resources := [], tick := 2, params := baseParams,
    nextId := 1, deathStats := emptyDeaths, seed := 1, winW := 1000, winH := 1000 }

/-- A mating male with two eligible mating females: agent 1 at distance 0,
agent 2 at distance 10.  Candidate order is `[1, 2]`. -/
def eC5cex : Engine :=
  { agents := [{ mkAgent 0 with state := AgentState.mating, energy := 50 },
               { mkAgent 1 with state := AgentState.mating, energy := 50, sex := Sex.female },
               { mkAgent 2 with state := AgentState.mating, energy := 50, sex := Sex.female, y := 110 }],
    resources := [], tick := 3, params := baseParams,
    nextId := 3, deathStats := emptyDeaths, seed := 1, winW := 1000, winH := 1000 }

/-- An exploring agent with hunger 80, energy 10, and no positive-amount
resource anywhere. -/
def eC6cex : Engine :=
  { agents := [{ mkAgent 0 with hunger := 80, energy := 10 }],
    resources := [{ x := 200, y := 200, amount := 0, maxAmount := 20, regenerationRate := 0 }],
    tick := 0, params := baseParams, nextId := 1, deathStats := emptyDeaths,
    seed := 1, winW := 1000, winH := 1000 }

/-- A hungry exploring agent (hunger 80). -/
def aC6 : Agent := { mkAgent 0 with hunger := 80, energy := 60 }

/-- An engine for checking the exploring-transition characterization at a
concrete input: hunger 80, a positive resource available. -/
def eC6wit : Engine :=
  { agents := [aC6],
    resources := [{ x := 150, y := 100, amount := 10, maxAmount := 20, regenerationRate := 0 }],
    tick := 0, params := baseParams, nextId := 1, deathStats := emptyDeaths,
    seed := 1, winW := 1000, winH := 1000 }

/-- A lone healthy agent of the given age (hunger 50, stress 0, exploring, no
resources in the world, time-scale 1). -/
def eC7 (q : ℚ) : Engine :=
  { agents := [{ mkAgent 0 with age := q }],
    resources := [], tick := 5, params := baseParams, nextId := 1,
    deathStats := emptyDeaths, seed := 1, winW := 1000, winH := 1000 }

/-- One agent about to die of starvation and old age simultaneously
(`hunger 99.9 → 100.1`, `age 2500`): both cause counters increment but only
one agent died. -/
def eC8cex : Engine :=
  { agents := [{ mkAgent 0 with age := 2500, hunger := 99.9 }],
    resources := [], tick := 0, params := baseParams, nextId := 1,
    deathStats := emptyDeaths, seed := 1, winW := 1000, winH := 1000 }

/-- A small well-formed engine used to instantiate the universally quantified
invariant theorems: one agent beside one stocked resource. -/
def eW : Engine :=
  { agents := [{ mkAgent 0 with hunger := 80 }],
    resources := [{ x := 100, y := 100, amount := 10, maxAmount := 20, regenerationRate := 1/10 }],
    tick := 0, params := baseParams, nextId := 1, deathStats := emptyDeaths,
    seed := 1, winW := 1000, winH := 1000 }

/-- An engine with no agents at all (used for the empty-population statistics
witness). -/
def eEmpty : Engine :=
  { agents := [], resources := [{ x := 10, y := 10, amount := 5, maxAmount := 5, regenerationRate := 0 }],
    tick := 7, params := baseParams, nextId := 4,
    deathStats := { starvation := 1, oldAge := 2, stress := 0, total := 4 },
    seed := 1, winW := 1000, winH := 1000 }

/-! ### Frame lemmas: what each per-agent step leaves untouched -/

theorem qmax_eq_max (a b : ℚ) : qmax a b = max a b := (max_def a b).symm

theorem qmin_eq_min (a b : ℚ) : qmin a b = min a b := (min_def a b).symm

theorem le_qmax_left (a b : ℚ) : a ≤ qmax a b := by
  rw [qmax_eq_max]; exact le_max_left a b

theorem qmax_le {a b c : ℚ} (h1 : a ≤ c) (h2 : b ≤ c) : qmax a b ≤ c := by
  rw [qmax_eq_max]; exact max_le h1 h2

theorem qmin_le_left (a b : ℚ) : qmin a b ≤ a := by
  rw [qmin_eq_min]; exact min_le_left a b

theorem le_qmin {a b c : ℚ} (h1 : c ≤ a) (h2 : c ≤ b) : c ≤ qmin a b := by
  rw [qmin_eq_min]; exact le_min h1 h2


theorem foldlInv {α β : Type _} (P : β → Prop) (f : β → α → β) :
    ∀ (l : List α) (b : β), P b → (∀ b a, P b → P (f b a)) → P (l.foldl f b)
  | [], _, hb, _ => hb
  | a :: l, b, hb, hstep => foldlInv P f l (f b a) (hstep b a hb) hstep

theorem decayStep_frame (t : ℚ) (e : Engine) (i : ℕ) :
    (decayStep t e i).params = e.params ∧ (decayStep t e i).seed = e.seed ∧
      (decayStep t e i).resources = e.resources ∧
      (decayStep t e i).agents.length = e.agents.length := by
  unfold decayStep
  rcases e.agents[i]? with _ | a <;> simp [setAgent]

theorem updateAgentState_frame (e : Engine) (i : ℕ) :
    (updateAgentState e i).params = e.params ∧ (updateAgentState e i).seed = e.seed ∧
      (updateAgentState e i).agents.length = e.agents.length ∧
      (updateAgentState e i).resources.length = e.resources.length := by
  unfold updateAgentState
  rcases e.agents[i]? with _ | a
  · simp
  · dsimp only
    split
    · simp [setAgent]
    · rcases a.state <;> dsimp only
      · repeat' split
        all_goals simp [setAgent]
      · repeat' split
        all_goals simp [setAgent]
      · simp [setAgent]
      · repeat' split
        all_goals simp [setAgent]

theorem updateAgentMovement_frame (e : Engine) (i : ℕ) (t : ℚ) (rs : RS) :
    (updateAgentMovement e i t rs).1.params = e.params ∧
      (updateAgentMovement e i t rs).1.seed = e.seed ∧
      (updateAgentMovement e i t rs).1.resources = e.resources ∧
      (updateAgentMovement e i t rs).1.agents.length = e.agents.length := by
  unfold updateAgentMovement
  rcases e.agents[i]? with _ | a
  · simp
  · dsimp only
    repeat' split
    all_goals simp [setAgent]

theorem createOffspring_frame (e : Engine) (pA pB : Agent) (rs : RS) :
    (createOffspring e pA pB rs).1.params = e.params ∧
      (createOffspring e pA pB rs).1.seed = e.seed ∧
      (createOffspring e pA pB rs).1.resources = e.resources ∧
      (createOffspring e pA pB rs).1.agents.length = e.agents.length + 1 := by
  unfold createOffspring
  dsimp only
  repeat' split
  all_goals simp

theorem matingSuccess_frame (e : Engine) (i j : ℕ) (rs : RS) :
    (matingSuccess e i j rs).1.params = e.params ∧
      (matingSuccess e i j rs).1.seed = e.seed ∧
      (matingSuccess e i j rs).1.resources = e.resources ∧
      ((matingSuccess e i j rs).1.agents.length = e.agents.length ∨
        (matingSuccess e i j rs).1.agents.length = e.agents.length + 1) := by
  unfold matingSuccess
  rcases hi : e.agents[i]? with _ | a <;> rcases hj : e.agents[j]? with _ | m
  all_goals dsimp only
  · simp
  · simp
  · simp
  · have hc := createOffspring_frame e a m rs
    rcases hcr : createOffspring e a m rs with ⟨e1, nb, rs1⟩
    rw [hcr] at hc
    obtain ⟨hp, hs, hr, hl⟩ := hc
    dsimp only
    repeat' split
    all_goals exact ⟨hp, hs, hr, Or.inr (by simp [List.length_set]; exact hl)⟩

theorem mateLoop_frame (e : Engine) (i : ℕ) (l : List ℕ) (rs : RS) :
    (mateLoop e i l rs).1.params = e.params ∧
      (mateLoop e i l rs).1.seed = e.seed ∧
      (mateLoop e i l rs).1.resources = e.resources ∧
      ((mateLoop e i l rs).1.agents.length = e.agents.length ∨
        (mateLoop e i l rs).1.agents.length = e.agents.length + 1) := by
  induction l generalizing rs with
  | nil => simp [mateLoop]
  | cons j rest ih =>
    unfold mateLoop
    dsimp only
    split
    · exact matingSuccess_frame e i j _
    · exact ih _

theorem checkMatingCollisions_frame (e : Engine) (i : ℕ) (rs : RS) :
    (checkMatingCollisions e i rs).1.params = e.params ∧
      (checkMatingCollisions e i rs).1.seed = e.seed ∧
      (checkMatingCollisions e i rs).1.resources = e.resources ∧
      ((checkMatingCollisions e i rs).1.agents.length = e.agents.length ∨
        (checkMatingCollisions e i rs).1.agents.length = e.agents.length + 1) := by
  unfold checkMatingCollisions
  rcases hi : e.agents[i]? with _ | a
  · simp
  · dsimp only
    split
    · simp
    · have hm := mateLoop_frame e i (potentialMatesIdx e i) rs
      rcases hml : mateLoop e i (potentialMatesIdx e i) rs with ⟨e1, rs1⟩
      rw [hml] at hm
      obtain ⟨hp, hs, hr, hl⟩ := hm
      dsimp only
      repeat' split
      all_goals
        first
        | exact ⟨hp, hs, hr, hl⟩
        | exact ⟨hp, hs, hr, by simpa [setAgent] using hl⟩

theorem consumeStep_frame (t : ℚ) (e : Engine) (i : ℕ) :
    (consumeStep t e i).params = e.params ∧ (consumeStep t e i).seed = e.seed ∧
      (consumeStep t e i).agents.length = e.agents.length ∧
      (consumeStep t e i).resources.length = e.resources.length := by
  unfold consumeStep
  rcases e.agents[i]? with _ | a
  · simp
  · dsimp only
    repeat' split
    all_goals simp [setAgent]

theorem stressStep_frame (t : ℚ) (e : Engine) (i : ℕ) :
    (stressStep t e i).params = e.params ∧ (stressStep t e i).seed = e.seed ∧
      (stressStep t e i).resources = e.resources ∧
      (stressStep t e i).agents.length = e.agents.length := by
  unfold stressStep
  rcases e.agents[i]? with _ | a
  · simp
  · dsimp only
    repeat' split
    all_goals simp [setAgent]

theorem perAgentStep_frame (t : ℚ) (st : Engine × RS) (i : ℕ) :
    (perAgentStep t st i).1.params = st.1.params ∧
      (perAgentStep t st i).1.seed = st.1.seed := by
  unfold perAgentStep
  dsimp only
  have h1 := decayStep_frame t st.1 i
  have h2 := updateAgentState_frame (decayStep t st.1 i) i
  have h3 := updateAgentMovement_frame (updateAgentState (decayStep t st.1 i) i) i t st.2
  rcases hmv : updateAgentMovement (updateAgentState (decayStep t st.1 i) i) i t st.2 with ⟨e3, rs1⟩
  rw [hmv] at h3
  have h4 := checkMatingCollisions_frame e3 i rs1
  rcases hmc : checkMatingCollisions e3 i rs1 with ⟨e4, rs2⟩
  rw [hmc] at h4
  have h5 := consumeStep_frame t e4 i
  have h6 := stressStep_frame t (consumeStep t e4 i) i
  dsimp only
  rw [h6.1, h6.2.1, h5.1, h5.2.1, h4.1, h4.2.1, h3.1, h3.2.1, h2.1, h2.2.1, h1.1, h1.2.1]
  exact ⟨rfl, rfl⟩

theorem update_params_seed (e : Engine) (rs : RS) :
    (update e rs).1.params = e.params ∧ (update e rs).1.seed = e.seed := by
  unfold update
  dsimp only
  have hmain :
      ∀ st : Engine × RS,
        st.1.params = e.params ∧ st.1.seed = e.seed →
          ((List.range (regenAll { e with tick := e.tick + 1 } e.params.timeScale).agents.length).foldl
              (perAgentStep e.params.timeScale) st).1.params = e.params ∧
            ((List.range (regenAll { e with tick := e.tick + 1 } e.params.timeScale).agents.length).foldl
              (perAgentStep e.params.timeScale) st).1.seed = e.seed := by
    intro st hst
    refine foldlInv (fun st => st.1.params = e.params ∧ st.1.seed = e.seed) _ _ st hst ?_
    intro b i hb
    have h := perAgentStep_frame e.params.timeScale b i
    exact ⟨h.1.trans hb.1, h.2.trans hb.2⟩
  have h0 : (regenAll { e with tick := e.tick + 1 } e.params.timeScale).params = e.params ∧
      (regenAll { e with tick := e.tick + 1 } e.params.timeScale).seed = e.seed := by
    simp [regenAll]
  have := hmain (regenAll { e with tick := e.tick + 1 } e.params.timeScale, rs) h0
  simp only [sweepDeaths]
  exact this

/-! ### Invariant preservation through one tick -/

theorem forall_mem_set {α : Type _} {P : α → Prop} {l : List α} {i : ℕ} {a : α}
    (hl : ∀ x ∈ l, P x) (ha : P a) : ∀ x ∈ l.set i a, P x := by
  intro x hx
  rcases List.mem_or_eq_of_mem_set hx with h | h
  · exact hl x h
  · exact h ▸ ha

theorem findNearestGo_spec (ax ay : ℚ) (M : List Resource) :
    ∀ (l : List Resource) (i : ℕ) (acc : Option (ℕ × Resource × ℚ)),
      (∀ x ∈ l, x ∈ M) →
      (∀ p, acc = some p → 0 < p.2.1.amount ∧ p.2.1 ∈ M) →
      ∀ p, findNearestGo ax ay l i acc = some p → 0 < p.2.1.amount ∧ p.2.1 ∈ M := by
  intro l
  induction l with
  | nil =>
    intro i acc _ hacc p h
    exact hacc p (by simpa [findNearestGo] using h)
  | cons rr rest ih =>
    intro i acc hl hacc p h
    rw [findNearestGo] at h
    dsimp only at h
    refine ih (i + 1) _ (fun x hx => hl x (List.mem_cons_of_mem _ hx)) ?_ p h
    intro q hq
    split at hq
    · rename_i hpos
      split at hq
      · cases hq
        exact ⟨hpos, hl rr (List.mem_cons_self rr rest)⟩
      · split at hq
        · cases hq
          exact ⟨hpos, hl rr (List.mem_cons_self rr rest)⟩
        · cases hq
          rename_i j0 r0 d0 _
          exact hacc (j0, r0, d0) rfl
    · exact hacc q hq

theorem findNearestIdx_spec (e : Engine) (ax ay : ℚ) (j : ℕ) (r : Resource)
    (h : findNearestIdx e ax ay = some (j, r)) : 0 < r.amount ∧ r ∈ e.resources := by
  unfold findNearestIdx at h
  rcases hg : findNearestGo ax ay e.resources 0 none with _ | p
  · rw [hg] at h
    simp at h
  · rcases p with ⟨j0, r0, d0⟩
    rw [hg] at h
    have hs := findNearestGo_spec ax ay e.resources e.resources 0 none
      (fun x hx => hx) (by intro q hq; cases hq) (j0, r0, d0) hg
    simp at h
    obtain ⟨h1, h2⟩ := h
    rw [← h2]
    exact hs

/-- The debited resource stays within bounds: subtracting
`min(amount, c)` with `0 ≤ c` from a positive-amount in-range resource. -/
theorem resource_debit_inv {r : Resource} {c : ℚ} (hr : ResourceInv r)
    (hpos : 0 < r.amount) (hc : 0 ≤ c) :
    ResourceInv { r with amount := r.amount - qmin r.amount c } := by
  obtain ⟨h0, h1, h2⟩ := hr
  refine ⟨?_, ?_, h2⟩
  · simpa [qmin_eq_min] using min_le_left r.amount c
  · have : r.amount - qmin r.amount c ≤ r.amount :=
      sub_le_self _ (le_qmin (le_of_lt hpos) hc)
    exact le_trans this h1

/-! #### Resource-side preservation -/

theorem regenAll_resourcesInv (e : Engine) (t : ℚ) (ht : 0 ≤ t)
    (hR : ∀ r ∈ e.resources, ResourceInv r) :
    ∀ r ∈ (regenAll e t).resources, ResourceInv r := by
  intro r hr
  simp only [regenAll, List.mem_map] at hr
  obtain ⟨r0, hr0, rfl⟩ := hr
  obtain ⟨h0, h1, h2⟩ := hR r0 hr0
  refine ⟨?_, qmin_le_left _ _, h2⟩
  exact le_qmin (le_trans h0 h1)
    (add_nonneg h0 (mul_nonneg (mul_nonneg h2 (by norm_num)) ht))

theorem updateAgentState_resources_cases (e : Engine) (i : ℕ) :
    (updateAgentState e i).resources = e.resources ∨
      ∃ j r, 0 < r.amount ∧ r ∈ e.resources ∧
        (updateAgentState e i).resources =
          e.resources.set j { r with amount := r.amount - qmin r.amount 20 } := by
  unfold updateAgentState
  rcases ha : e.agents[i]? with _ | a
  · exact Or.inl rfl
  · dsimp only
    split
    · exact Or.inl rfl
    · rcases a.state <;> dsimp only
      · repeat' split
        all_goals exact Or.inl rfl
      · rcases hfn : findNearestIdx e a.x a.y with _ | ⟨j, r⟩ <;> dsimp only
        · exact Or.inl rfl
        · obtain ⟨hpos, hmem⟩ := findNearestIdx_spec e a.x a.y j r hfn
          repeat' split
          all_goals
            first
            | exact Or.inr ⟨j, r, hpos, hmem, rfl⟩
            | exact Or.inl rfl
      · exact Or.inl rfl
      · repeat' split
        all_goals exact Or.inl rfl

theorem updateAgentState_resourcesInv (e : Engine) (i : ℕ)
    (hR : ∀ r ∈ e.resources, ResourceInv r) :
    ∀ r ∈ (updateAgentState e i).resources, ResourceInv r := by
  rcases updateAgentState_resources_cases e i with h | ⟨j, r, hpos, hmem, h⟩
  · rw [h]; exact hR
  · rw [h]
    exact forall_mem_set hR (resource_debit_inv (hR r hmem) hpos (by norm_num))

theorem consumeStep_resources_cases (t : ℚ) (e : Engine) (i : ℕ) :
    (consumeStep t e i).resources = e.resources ∨
      ∃ j r, 0 < r.amount ∧ r ∈ e.resources ∧
        (consumeStep t e i).resources =
          e.resources.set j { r with amount := r.amount - qmin r.amount (15 * t) } := by
  unfold consumeStep
  rcases ha : e.agents[i]? with _ | a
  · exact Or.inl rfl
  · dsimp only
    rcases hfn : findNearestIdx e a.x a.y with _ | ⟨j, r⟩ <;> dsimp only
    · exact Or.inl rfl
    · obtain ⟨hpos, hmem⟩ := findNearestIdx_spec e a.x a.y j r hfn
      split
      · exact Or.inr ⟨j, r, hpos, hmem, rfl⟩
      · exact Or.inl rfl

theorem consumeStep_resourcesInv (t : ℚ) (ht : 0 ≤ t) (e : Engine) (i : ℕ)
    (hR : ∀ r ∈ e.resources, ResourceInv r) :
    ∀ r ∈ (consumeStep t e i).resources, ResourceInv r := by
  rcases consumeStep_resources_cases t e i with h | ⟨j, r, hpos, hmem, h⟩
  · rw [h]; exact hR
  · rw [h]
    exact forall_mem_set hR
      (resource_debit_inv (hR r hmem) hpos (mul_nonneg (by norm_num) ht))

theorem perAgentStep_resourcesInv (t : ℚ) (ht : 0 ≤ t) (st : Engine × RS) (i : ℕ)
    (hR : ∀ r ∈ st.1.resources, ResourceInv r) :
    ∀ r ∈ (perAgentStep t st i).1.resources, ResourceInv r := by
  unfold perAgentStep
  dsimp only
  have h1 := (decayStep_frame t st.1 i).2.2.1
  have hR1 : ∀ r ∈ (decayStep t st.1 i).resources, ResourceInv r := h1 ▸ hR
  have hR2 := updateAgentState_resourcesInv (decayStep t st.1 i) i hR1
  rcases hmv : updateAgentMovement (updateAgentState (decayStep t st.1 i) i) i t st.2 with ⟨e3, rs1⟩
  have h3 := (updateAgentMovement_frame (updateAgentState (decayStep t st.1 i) i) i t st.2).2.2.1
  rw [hmv] at h3
  have hR3 : ∀ r ∈ e3.resources, ResourceInv r := by
    intro r hr
    exact hR2 r (h3 ▸ hr)
  rcases hmc : checkMatingCollisions e3 i rs1 with ⟨e4, rs2⟩
  have h4 := (checkMatingCollisions_frame e3 i rs1).2.2.1
  rw [hmc] at h4
  have hR4 : ∀ r ∈ e4.resources, ResourceInv r := by
    intro r hr
    exact hR3 r (h4 ▸ hr)
  have hR5 := consumeStep_resourcesInv t ht e4 i hR4
  have h6 := (stressStep_frame t (consumeStep t e4 i) i).2.2.1
  intro r hr
  exact hR5 r (h6 ▸ hr)

/-! #### Agent-side preservation -/

theorem AgentInv_of_fields {a b : Agent} (h1 : b.hunger = a.hunger)
    (h2 : b.energy = a.energy) (h3 : b.stressLevel = a.stressLevel)
    (h4 : b.state = a.state) (ha : AgentInv a) : AgentInv b := by
  unfold AgentInv at *
  rw [h1, h2, h3, h4]
  exact ha

theorem decayStep_agentsInv (t : ℚ) (ht : 0 ≤ t) (e : Engine) (i : ℕ)
    (hA : ∀ x ∈ e.agents, AgentInv x) :
    ∀ x ∈ (decayStep t e i).agents, AgentInv x := by
  unfold decayStep
  rcases ha : e.agents[i]? with _ | a
  · exact hA
  · obtain ⟨h1, h2, h3, h4, h5⟩ := hA a (List.getElem?_mem ha)
    refine forall_mem_set hA ⟨?_, ?_, ?_, ?_, ?_⟩ <;> dsimp only
    · exact add_nonneg h1 (mul_nonneg (by norm_num) ht)
    · exact le_qmax_left 0 _
    · exact qmax_le (by norm_num) (le_trans (sub_le_self _ (mul_nonneg (by norm_num) ht)) h3)
    · exact h4
    · intro hs
      exact qmax_le (by norm_num) (le_trans (sub_le_self _ (mul_nonneg (by norm_num) ht)) (h5 hs))

theorem stressStep_agentsInv (t : ℚ) (ht : 0 ≤ t) (e : Engine) (i : ℕ)
    (hA : ∀ x ∈ e.agents, AgentInv x) :
    ∀ x ∈ (stressStep t e i).agents, AgentInv x := by
  unfold stressStep
  rcases ha : e.agents[i]? with _ | a
  · exact hA
  · obtain ⟨h1, h2, h3, h4, h5⟩ := hA a (List.getElem?_mem ha)
    dsimp only
    split
    · refine forall_mem_set hA ⟨?_, ?_, ?_, ?_, ?_⟩ <;> dsimp only
      · exact h1
      · exact h2
      · exact h3
      · exact le_qmax_left 0 _
      · exact h5
    · exact hA

theorem updateAgentMovement_agents_cases (e : Engine) (i : ℕ) (t : ℚ) (rs : RS) :
    (updateAgentMovement e i t rs).1.agents = e.agents ∨
      ∃ a a', e.agents[i]? = some a ∧ a'.hunger = a.hunger ∧ a'.energy = a.energy ∧
        a'.stressLevel = a.stressLevel ∧ a'.state = a.state ∧
        (updateAgentMovement e i t rs).1.agents = e.agents.set i a' := by
  unfold updateAgentMovement
  rcases ha : e.agents[i]? with _ | a
  · exact Or.inl rfl
  · dsimp only
    repeat' split
    all_goals
      first
      | exact Or.inl rfl
      | (refine Or.inr ⟨a, _, rfl, ?_, ?_, ?_, ?_, rfl⟩ <;>
          simp [apply_ite Agent.hunger, apply_ite Agent.energy,
            apply_ite Agent.stressLevel, apply_ite Agent.state])

theorem updateAgentMovement_agentsInv (e : Engine) (i : ℕ) (t : ℚ) (rs : RS)
    (hA : ∀ x ∈ e.agents, AgentInv x) :
    ∀ x ∈ (updateAgentMovement e i t rs).1.agents, AgentInv x := by
  rcases updateAgentMovement_agents_cases e i t rs with h | ⟨a, a', ha, h1, h2, h3, h4, h⟩
  · rw [h]; exact hA
  · rw [h]
    exact forall_mem_set hA
      (AgentInv_of_fields h1 h2 h3 h4 (hA a (List.getElem?_mem ha)))

theorem consumeStep_agentsInv (t : ℚ) (ht : 0 ≤ t) (e : Engine) (i : ℕ)
    (hA : ∀ x ∈ e.agents, AgentInv x) :
    ∀ x ∈ (consumeStep t e i).agents, AgentInv x := by
  unfold consumeStep
  rcases ha : e.agents[i]? with _ | a
  · exact hA
  · obtain ⟨h1, h2, h3, h4, h5⟩ := hA a (List.getElem?_mem ha)
    dsimp only
    rcases hfn : findNearestIdx e a.x a.y with _ | ⟨j, r⟩ <;> dsimp only
    · exact hA
    · obtain ⟨hpos, _⟩ := findNearestIdx_spec e a.x a.y j r hfn
      have hcons : 0 ≤ qmin r.amount (15 * t) :=
        le_min (le_of_lt hpos) (mul_nonneg (by norm_num) ht)
      split
      · refine forall_mem_set hA ⟨?_, ?_, ?_, ?_, ?_⟩ <;> dsimp only
        · exact le_qmax_left 0 _
        · exact le_qmin (by norm_num) (add_nonneg h2 (mul_nonneg hcons (by norm_num)))
        · exact le_trans (qmin_le_left _ _) (by norm_num)
        · exact h4
        · intro _
          exact qmin_le_left _ _
      · exact hA

theorem createOffspring_agentsInv (e : Engine) (pA pB : Agent) (rs : RS)
    (hA : ∀ x ∈ e.agents, AgentInv x) :
    ∀ x ∈ (createOffspring e pA pB rs).1.agents, AgentInv x := by
  intro x hx
  have hcas :
      (createOffspring e pA pB rs).1.agents =
        e.agents ++ [(createOffspring e pA pB rs).2.1] := rfl
  rw [hcas, List.mem_append] at hx
  rcases hx with hx | hx
  · exact hA x hx
  · rcases List.mem_singleton.mp hx with rfl
    show AgentInv (createOffspring e pA pB rs).2.1
    unfold createOffspring
    dsimp only
    split
    all_goals
      exact ⟨by norm_num, by norm_num, by norm_num, le_refl 0, fun _ => by norm_num⟩

theorem matingSuccess_agentsInv (e : Engine) (i j : ℕ) (rs : RS)
    (ht : 0 ≤ e.params.timeScale)
    (hA : ∀ x ∈ e.agents, AgentInv x) :
    ∀ x ∈ (matingSuccess e i j rs).1.agents, AgentInv x := by
  unfold matingSuccess
  rcases hi : e.agents[i]? with _ | a
  · exact hA
  rcases hj : e.agents[j]? with _ | m
  · exact hA
  obtain ⟨ha1, ha2, ha3, ha4, ha5⟩ := hA a (List.getElem?_mem hi)
  obtain ⟨hm1, hm2, hm3, hm4, hm5⟩ := hA m (List.getElem?_mem hj)
  have hcost : 0 ≤ 10 * e.params.timeScale := mul_nonneg (by norm_num) ht
  have hAoff := createOffspring_agentsInv e a m rs hA
  dsimp only
  rcases hco : createOffspring e a m rs with ⟨e1, nb, rs1⟩
  rw [hco] at hAoff
  dsimp only
  refine forall_mem_set (forall_mem_set hAoff ?_) ?_
  · split
    all_goals
      exact ⟨ha1, le_qmax_left 0 _,
        qmax_le (by norm_num) (le_trans (sub_le_self _ hcost) ha3), ha4,
        fun h => nomatch h⟩
  · split
    all_goals
      exact ⟨hm1, le_qmax_left 0 _,
        qmax_le (by norm_num) (le_trans (sub_le_self _ hcost) hm3), hm4,
        fun h => nomatch h⟩

theorem updateAgentState_agents_cases (e : Engine) (i : ℕ) :
    (updateAgentState e i).agents = e.agents ∨
      ∃ a a', e.agents[i]? = some a ∧
        (updateAgentState e i).agents = e.agents.set i a' ∧
        (AgentInv a → AgentInv a') := by
  unfold updateAgentState
  rcases ha : e.agents[i]? with _ | a
  · exact Or.inl rfl
  have hstress : ∀ s : ℚ, 0 ≤ s → 0 ≤ qmin 100 (s + (nearbyCount e a : ℚ) * 0.01) :=
    fun s hs =>
      le_qmin (by norm_num) (add_nonneg hs (mul_nonneg (Nat.cast_nonneg _) (by norm_num)))
  dsimp only
  split
  · exact Or.inr ⟨a, _, rfl, rfl, fun hv => ⟨hv.1, hv.2.1, hv.2.2.1, hstress _ hv.2.2.2.1, hv.2.2.2.2⟩⟩
  · rcases hst : a.state <;> dsimp only
    · -- exploring
      by_cases hh : 70 < a.hunger
      · rw [if_pos hh]
        rcases hfn : findNearestIdx e a.x a.y with _ | ⟨j, r⟩ <;> dsimp only <;>
          exact Or.inr ⟨a, _, rfl, rfl, fun hv => ⟨hv.1, hv.2.1, hv.2.2.1, hstress _ hv.2.2.2.1, fun h => nomatch h⟩⟩
      · rw [if_neg hh]
        by_cases he : a.energy < 20
        · rw [if_pos he]
          exact Or.inr ⟨a, _, rfl, rfl, fun hv => ⟨hv.1, hv.2.1, hv.2.2.1, hstress _ hv.2.2.2.1,
              fun _ => le_trans (le_of_lt he) (by norm_num)⟩⟩
        · rw [if_neg he]
          by_cases hm : a.hunger < 50 ∧ 50 < a.energy
          · rw [if_pos hm]
            exact Or.inr ⟨a, _, rfl, rfl, fun hv => ⟨hv.1, hv.2.1, hv.2.2.1, hstress _ hv.2.2.2.1, fun h => nomatch h⟩⟩
          · rw [if_neg hm]
            exact Or.inr ⟨a, _, rfl, rfl, fun hv => ⟨hv.1, hv.2.1, hv.2.2.1, hstress _ hv.2.2.2.1, fun h => nomatch h⟩⟩
    · -- eating
      rcases hfn : findNearestIdx e a.x a.y with _ | ⟨j, r⟩ <;> dsimp only
      · exact Or.inr ⟨a, _, rfl, rfl, fun hv => ⟨hv.1, hv.2.1, hv.2.2.1, hstress _ hv.2.2.2.1, fun h => nomatch h⟩⟩
      · obtain ⟨hpos, _⟩ := findNearestIdx_spec e a.x a.y j r hfn
        have hcons : 0 ≤ qmin r.amount 20 := le_qmin (le_of_lt hpos) (by norm_num)
        split
        · split
          · exact Or.inr ⟨a, _, rfl, rfl, fun hv => ⟨le_qmax_left 0 _,
                le_qmin (by norm_num) (add_nonneg hv.2.1 (mul_nonneg hcons (by norm_num))),
                le_trans (qmin_le_left _ _) (by norm_num),
                hstress _ hv.2.2.2.1, fun h => nomatch h⟩⟩
          · exact Or.inr ⟨a, _, rfl, rfl, fun hv => ⟨le_qmax_left 0 _,
                le_qmin (by norm_num) (add_nonneg hv.2.1 (mul_nonneg hcons (by norm_num))),
                le_trans (qmin_le_left _ _) (by norm_num),
                hstress _ hv.2.2.2.1, fun h => nomatch h⟩⟩
        · exact Or.inr ⟨a, _, rfl, rfl, fun hv => ⟨hv.1, hv.2.1, hv.2.2.1, hstress _ hv.2.2.2.1, fun h => nomatch h⟩⟩
    · -- mating
      exact Or.inr ⟨a, _, rfl, rfl, fun hv => ⟨hv.1, hv.2.1, hv.2.2.1, hstress _ hv.2.2.2.1, fun h => nomatch h⟩⟩
    · -- resting
      split
      · exact Or.inr ⟨a, _, rfl, rfl, fun hv => ⟨hv.1, add_nonneg hv.2.1 (by norm_num),
            by have h100 := hv.2.2.2.2 hst; linarith,
            hstress _ hv.2.2.2.1, fun h => nomatch h⟩⟩
      · rename_i hle
        exact Or.inr ⟨a, _, rfl, rfl, fun hv => ⟨hv.1, add_nonneg hv.2.1 (by norm_num),
            by have h100 := hv.2.2.2.2 hst; linarith,
            hstress _ hv.2.2.2.1, fun _ => by rw [not_lt] at hle; linarith⟩⟩

theorem updateAgentState_agentsInv (e : Engine) (i : ℕ)
    (hA : ∀ x ∈ e.agents, AgentInv x) :
    ∀ x ∈ (updateAgentState e i).agents, AgentInv x := by
  rcases updateAgentState_agents_cases e i with h | ⟨a, a', ha, h, himp⟩
  · rw [h]; exact hA
  · rw [h]
    exact forall_mem_set hA (himp (hA a (List.getElem?_mem ha)))

theorem mateLoop_agentsInv (e : Engine) (i : ℕ) (l : List ℕ) (rs : RS)
    (ht : 0 ≤ e.params.timeScale)
    (hA : ∀ x ∈ e.agents, AgentInv x) :
    ∀ x ∈ (mateLoop e i l rs).1.agents, AgentInv x := by
  induction l generalizing rs with
  | nil => exact hA
  | cons j rest ih =>
    unfold mateLoop
    dsimp only
    split
    · exact matingSuccess_agentsInv e i j _ ht hA
    · exact ih _

theorem checkMatingCollisions_agentsInv (e : Engine) (i : ℕ) (rs : RS)
    (ht : 0 ≤ e.params.timeScale)
    (hA : ∀ x ∈ e.agents, AgentInv x) :
    ∀ x ∈ (checkMatingCollisions e i rs).1.agents, AgentInv x := by
  unfold checkMatingCollisions
  rcases ha : e.agents[i]? with _ | a
  · exact hA
  dsimp only
  split
  · exact hA
  · have hml := mateLoop_agentsInv e i (potentialMatesIdx e i) rs ht hA
    rcases hml' : mateLoop e i (potentialMatesIdx e i) rs with ⟨e1, rs1⟩
    rw [hml'] at hml
    dsimp only
    split
    · rcases hb : e1.agents[i]? with _ | a1
      · exact hml
      · obtain ⟨h1, h2, h3, h4, _⟩ := hml a1 (List.getElem?_mem hb)
        exact forall_mem_set hml ⟨h1, h2, h3, h4, fun h => nomatch h⟩
    · exact hml

theorem perAgentStep_agentsInv (t : ℚ) (ht : 0 ≤ t) (st : Engine × RS) (i : ℕ)
    (htp : 0 ≤ st.1.params.timeScale)
    (hA : ∀ x ∈ st.1.agents, AgentInv x) :
    ∀ x ∈ (perAgentStep t st i).1.agents, AgentInv x := by
  unfold perAgentStep
  dsimp only
  have hA1 := decayStep_agentsInv t ht st.1 i hA
  have hA2 := updateAgentState_agentsInv (decayStep t st.1 i) i hA1
  rcases hmv : updateAgentMovement (updateAgentState (decayStep t st.1 i) i) i t st.2 with ⟨e3, rs1⟩
  have hA3 : ∀ x ∈ e3.agents, AgentInv x := by
    have h := updateAgentMovement_agentsInv (updateAgentState (decayStep t st.1 i) i) i t st.2 hA2
    rw [hmv] at h
    exact h
  have htp3 : 0 ≤ e3.params.timeScale := by
    have h3 := (updateAgentMovement_frame (updateAgentState (decayStep t st.1 i) i) i t st.2).1
    rw [hmv] at h3
    dsimp only at h3
    rw [h3, (updateAgentState_frame _ _).1, (decayStep_frame _ _ _).1]
    exact htp
  rcases hmc : checkMatingCollisions e3 i rs1 with ⟨e4, rs2⟩
  have hA4 : ∀ x ∈ e4.agents, AgentInv x := by
    have h := checkMatingCollisions_agentsInv e3 i rs1 htp3 hA3
    rw [hmc] at h
    exact h
  have hA5 := consumeStep_agentsInv t ht e4 i hA4
  exact stressStep_agentsInv t ht (consumeStep t e4 i) i hA5

theorem sweepDeaths_agents_mem {e : Engine} {a : Agent}
    (h : a ∈ (sweepDeaths e).agents) :
    a ∈ e.agents ∧ a.age < 2000 ∧ a.hunger < 100 ∧ a.stressLevel < 100 := by
  have h' : a ∈ e.agents.filter
      (fun a => decide (a.age < 2000 ∧ a.hunger < 100 ∧ a.stressLevel < 100)) := h
  have hm := List.mem_filter.mp h'
  exact ⟨hm.1, of_decide_eq_true hm.2⟩

/-! ### Claim theorems -/

/-- Claim C1, counterexample.  With the seed and the whole configuration fixed
(the very same engine state `eC1`), two runs of one `update()` call produce
different `(id, x, y, state)` snapshot sequences when the ambient
`Math.random` stream differs: wandering is driven by `Math.random`, not by the
seeded generator, so a fixed seed does not make runs reproducible. -/
theorem seeded_determinism_counterexample :
    runN 1 eC1 rHalf ≠ runN 1 eC1 rNine := by
  with_unfolding_all decide

/-- Claim C1 (corrected): `update()` draws nothing from the seeded RNG — its
stochastic decisions (wandering, mating success and abandonment, offspring
placement and sex) come from the ambient unseeded `Math.random` stream.
Determinism holds only once the ambient stream is fixed as well: runs of `N`
ticks from the same state with pointwise-equal ambient streams produce
identical `(id, x, y, state)` snapshot sequences, and `update()` leaves the
seeded generator's state untouched. -/
theorem update_deterministic_given_ambient_stream :
    (∀ (e : Engine) (r1 r2 : RS), r1.k = r2.k → (∀ n, r1.r n = r2.r n) →
        ∀ N : ℕ, runN N e r1 = runN N e r2) ∧
      ∀ (e : Engine) (rs : RS), (update e rs).1.seed = e.seed := by
  constructor
  · intro e r1 r2 hk hr N
    have heq : r1 = r2 := by
      cases r1
      cases r2
      simp only at hk
      subst hk
      have := funext hr
      simp only at this
      rw [this]
    rw [heq]
  · intro e rs
    exact (update_params_seed e rs).2

/-- Claim C1 witness: the determinism theorem applied to two pointwise-equal
but syntactically different streams, and seed preservation at a concrete
engine. -/
theorem update_deterministic_given_ambient_stream_witness :
    runN 2 eC1 rHalf = runN 2 eC1 rHalfAlt ∧ (update eC1 rHalf).1.seed = eC1.seed :=
  ⟨update_deterministic_given_ambient_stream.1 eC1 rHalf rHalfAlt rfl
      (fun n => by simp [rHalf, rHalfAlt]) 2,
    update_deterministic_given_ambient_stream.2 eC1 rHalf⟩

/-- Claim C4, counterexample.  A newborn (birth tick 1, current tick 2) in
`resting` state keeps energy 50 through `updateAgentState` — the grace-period
branch returns before the state machine runs — while the identical agent with
`birthTick = 0` gains the resting increment and ends at 53.  The grace period
is therefore behavioral, not only presentational. -/
theorem newborn_grace_counterexample :
    (updateAgentState eC4new 0).agents.map Agent.energy = [50] ∧
      (updateAgentState eC4old 0).agents.map Agent.energy = [53] := by
  with_unfolding_all decide

/-- Claim C4 (corrected): during the newborn grace window (`birthTick ≠ 0` and
`tick − birthTick < 60`), `updateAgentState` performs only the stress
accumulation and the grace-color assignment and then returns: no behavioral
transition, no eating, and no resting energy gain happens in the state
machine for that agent (movement, mating checks and opportunistic consumption
outside `updateAgentState` still apply).  Initial-population agents
(`birthTick = 0`) never receive the grace period because of the JS truthiness
test. -/
theorem newborn_grace_characterization (e : Engine) (i : ℕ) (a : Agent)
    (ha : e.agents[i]? = some a) (hb : a.birthTick ≠ 0)
    (hw : (e.tick : ℤ) - (a.birthTick : ℤ) < 60) :
    updateAgentState e i =
      setAgent e i
        { a with stressLevel := qmin 100 (a.stressLevel + (nearbyCount e a : ℚ) * 0.01),
                 color := graceColor e.tick a.birthTick } := by
  unfold updateAgentState
  rw [ha]
  dsimp only
  rw [if_pos ⟨hb, hw⟩]

/-- Claim C4 witness: the grace characterization applied at the concrete
newborn engine. -/
theorem newborn_grace_characterization_witness :
    updateAgentState eC4new 0 =
      setAgent eC4new 0
        { aC4 with stressLevel := qmin 100 (aC4.stressLevel + (nearbyCount eC4new aC4 : ℚ) * 0.01),
                   color := graceColor eC4new.tick aC4.birthTick } :=
  newborn_grace_characterization eC4new 0 aC4 rfl (by decide) (by decide)

/-- Claim C8 (confirmed): after every `update()` the reported `deaths.total`
equals the all-time-created count (`nextId`) minus the current population
count, and it is not the sum of the cause counters: at `eC8cex` one agent dies
satisfying both the starvation and the old-age condition, leaving
`total = 1` while `starvation + oldAge + stress = 2`. -/
theorem deaths_total_population_delta :
    (∀ (e : Engine) (rs : RS),
        (update e rs).1.deathStats.total =
          ((update e rs).1.nextId : ℤ) - ((update e rs).1.agents.length : ℤ)) ∧
      (update eC8cex rHalf).1.deathStats.total = 1 ∧
      ((update eC8cex rHalf).1.deathStats.starvation : ℤ) +
          ((update eC8cex rHalf).1.deathStats.oldAge : ℤ) +
          ((update eC8cex rHalf).1.deathStats.stress : ℤ) = 2 := by
  refine ⟨fun e rs => rfl, ?_, ?_⟩ <;> with_unfolding_all decide

/-- Claim C10 (confirmed): with an empty population the average divisors are
guarded to 1 (`agents.length || 1`), so `getStats` returns zero averages
rather than a division by zero. -/
theorem stats_empty_population_averages (e : Engine) (h : e.agents = []) :
    (getStats e).avgStress = 0 ∧ (getStats e).avgHunger = 0 ∧
      (getStats e).avgEnergy = 0 := by
  simp [getStats, h]

/-- Claim C10 witness: the empty-population statistics at a concrete engine
with no agents. -/
theorem stats_empty_population_averages_witness :
    (getStats eEmpty).avgStress = 0 ∧ (getStats eEmpty).avgHunger = 0 ∧
      (getStats eEmpty).avgEnergy = 0 :=
  stats_empty_population_averages eEmpty rfl

/-- Claim C2, counterexample.  From a state all of whose agent fields satisfy
the spec's `[0,100]` ranges (one resting agent at energy 100, time-scale 2),
one `update()` leaves the agent alive with energy `102.84 > 100`: the resting
increment `energy += 3` is applied without an upper clamp, so energy is not
confined to `[0,100]`.  (Such states arise in real runs: a resting agent next
to a stocked resource is driven to the consumption cap of 100 and then gains
the unclamped `+3`.) -/
theorem energy_clamp_counterexample :
    (eC2cex.agents.all fun a =>
      decide (0 ≤ a.hunger ∧ a.hunger ≤ 100 ∧ 0 ≤ a.energy ∧ a.energy ≤ 100 ∧
        0 ≤ a.stressLevel ∧ a.stressLevel ≤ 100)) = true ∧
      ((update eC2cex rHalf).1.agents.map Agent.energy = [2571/25]) ∧
      ¬ ((2571 : ℚ)/25 ≤ 100) := by
  refine ⟨by with_unfolding_all decide, by with_unfolding_all rfl,
    by with_unfolding_all decide⟩

/-- Claim C2 (corrected): from any state whose agents lie in the spec's
`[0,100]` ranges (and any nonnegative time-scale), after one `update()` every
alive agent has `hunger ∈ [0,100)` and `stressLevel ∈ [0,100)` — but energy is
only bounded by `[0,103]`: the resting `+3` increment is unclamped and can
push energy past 100 (see the counterexample), while the mortality sweep
enforces the strict upper bounds on hunger and stress. -/
theorem update_bounds_alive (e : Engine) (rs : RS)
    (ht : 0 ≤ e.params.timeScale)
    (hA : ∀ a ∈ e.agents, AgentInRange a) :
    ∀ a ∈ (update e rs).1.agents,
      0 ≤ a.hunger ∧ a.hunger < 100 ∧ 0 ≤ a.energy ∧ a.energy ≤ 103 ∧
        0 ≤ a.stressLevel ∧ a.stressLevel < 100 := by
  have hA0 : ∀ a ∈ e.agents, AgentInv a := by
    intro a haa
    obtain ⟨h1, h2, h3, h4, h5, h6⟩ := hA a haa
    exact ⟨h1, h3, le_trans h4 (by norm_num), h5, fun _ => h4⟩
  have hmain := foldlInv
    (fun st : Engine × RS => (∀ x ∈ st.1.agents, AgentInv x) ∧ st.1.params = e.params)
    (perAgentStep e.params.timeScale)
    (List.range (regenAll { e with tick := e.tick + 1 } e.params.timeScale).agents.length)
    (regenAll { e with tick := e.tick + 1 } e.params.timeScale, rs)
    ⟨hA0, rfl⟩
    (fun b idx hb =>
      ⟨perAgentStep_agentsInv _ ht b idx (by rw [hb.2]; exact ht) hb.1,
        (perAgentStep_frame _ b idx).1.trans hb.2⟩)
  intro a hmem
  obtain ⟨hin, hage, hh, hs⟩ := sweepDeaths_agents_mem hmem
  have hi := hmain.1 a hin
  exact ⟨hi.1, hh, hi.2.1, hi.2.2.1, hi.2.2.2.1, hs⟩

/-- Claim C2 witness: the bounds theorem applied at a concrete one-agent
engine, with the conclusion evaluated. -/
theorem update_bounds_alive_witness :
    ((update eW rHalf).1.agents.all fun a =>
      decide (0 ≤ a.hunger ∧ a.hunger < 100 ∧ 0 ≤ a.energy ∧ a.energy ≤ 103 ∧
        0 ≤ a.stressLevel ∧ a.stressLevel < 100)) = true :=
  List.all_eq_true.mpr fun a haa =>
    decide_eq_true
      (update_bounds_alive eW rHalf (by with_unfolding_all decide)
        (fun x hx => by
          rcases List.mem_singleton.mp hx with rfl
          refine ⟨?_, ?_, ?_, ?_, ?_, ?_⟩ <;> with_unfolding_all decide)
        a haa)

/-- Claim C9 (confirmed): for every resource, `0 ≤ amount ≤ maxAmount` holds
after every `update()` (given in-range resources, a nonnegative regeneration
rate and a nonnegative time-scale before the call): regeneration clamps at
`maxAmount` via `min(maxAmount, amount + regenerationRate * 3 * timeScale)`,
and both consumption sites debit `min(amount, cap)`, never more than the
current amount. -/
theorem resource_bounds_invariant (e : Engine) (rs : RS)
    (ht : 0 ≤ e.params.timeScale)
    (hR : ∀ r ∈ e.resources, ResourceInv r) :
    ∀ r ∈ (update e rs).1.resources, 0 ≤ r.amount ∧ r.amount ≤ r.maxAmount := by
  have h0 : ∀ r ∈ (regenAll { e with tick := e.tick + 1 } e.params.timeScale).resources,
      ResourceInv r :=
    regenAll_resourcesInv { e with tick := e.tick + 1 } e.params.timeScale ht hR
  have hmain := foldlInv
    (fun st : Engine × RS => (∀ r ∈ st.1.resources, ResourceInv r) ∧ st.1.params = e.params)
    (perAgentStep e.params.timeScale)
    (List.range (regenAll { e with tick := e.tick + 1 } e.params.timeScale).agents.length)
    (regenAll { e with tick := e.tick + 1 } e.params.timeScale, rs)
    ⟨h0, rfl⟩
    (fun b idx hb =>
      ⟨perAgentStep_resourcesInv _ ht b idx hb.1,
        (perAgentStep_frame _ b idx).1.trans hb.2⟩)
  intro r hmem
  have hr := hmain.1 r hmem
  exact ⟨hr.1, hr.2.1⟩

/-- Claim C9 witness: the resource-bounds theorem applied at a concrete
engine, with the conclusion evaluated. -/
theorem resource_bounds_invariant_witness :
    ((update eW rHalf).1.resources.all fun r =>
      decide (0 ≤ r.amount ∧ r.amount ≤ r.maxAmount)) = true :=
  List.all_eq_true.mpr fun r hr =>
    decide_eq_true
      (resource_bounds_invariant eW rHalf (by with_unfolding_all decide)
        (fun x hx => by
          rcases List.mem_singleton.mp hx with rfl
          refine ⟨?_, ?_, ?_⟩ <;> with_unfolding_all decide)
        r hr)

/-- Claim C5, counterexample.  Agent 0 is mating with eligible partners at
indices 1 and 2 (in that storage order).  The first per-candidate draw is 9/10
(not below the birth rate 1/2), the second is 1/10: reproduction happens with
the SECOND eligible partner (the newborn's parents are ids 0 and 2), two draws
were used, and reproduction succeeded even though the first drawn value was
not below `birthRate` — the loop draws one value per candidate, not one value
total. -/
theorem first_eligible_mate_counterexample :
    potentialMatesIdx eC5cex 0 = [1, 2] ∧
      ¬ rC5.r rC5.k < eC5cex.params.birthRate ∧
      ((checkMatingCollisions eC5cex 0 rC5).1.agents[3]?).map Agent.parentIds =
        some (some (0, 2)) := by
  refine ⟨?_, ?_, ?_⟩ <;> with_unfolding_all decide

/-- Claim C5 (corrected): the mating loop scans the eligible candidates in
population storage order drawing one random value per candidate, and
reproduces with the first candidate whose draw is below `birthRate`
(`chosenMate`); when the first draw succeeds the partner is the first
eligible candidate, and with a single eligible candidate exactly one value is
drawn and reproduction succeeds iff it is below `birthRate`. -/
theorem mate_selection_characterization (e : Engine) (i : ℕ) (cands : List ℕ) :
    ∀ rs : RS,
      mateLoop e i cands rs =
        match chosenMate e.params.birthRate rs.r rs.k cands with
        | none => (e, ⟨rs.r, rs.k + cands.length⟩)
        | some (j, k1) => matingSuccess e i j ⟨rs.r, k1⟩ := by
  induction cands with
  | nil => intro rs; simp [mateLoop, chosenMate]
  | cons j rest ih =>
    intro rs
    unfold mateLoop chosenMate
    dsimp only [RS.next]
    split
    · rfl
    · rw [ih ⟨rs.r, rs.k + 1⟩]
      rcases hcm : chosenMate e.params.birthRate rs.r (rs.k + 1) rest with _ | ⟨j1, k1⟩
      · simp [hcm, Nat.add_assoc, Nat.add_comm 1 rest.length]
      · simp [hcm]

/-- Claim C6, counterexample.  An exploring agent with hunger 80 (> 70),
energy 10 (< 20) and no reachable resource stays in `exploring`: the
`hunger > 70` branch swallows the transition and the `energy < 20` guard is
never evaluated, so the agent does not become `resting` as the claim
states. -/
theorem exploring_hunger_no_resource_counterexample :
    (updateAgentState eC6cex 0).agents.map Agent.state = [AgentState.exploring] := by
  with_unfolding_all decide

/-- Claim C6 (corrected): for a non-newborn exploring agent the transition is:
if `hunger > 70` then `eating` when a positive-amount resource exists and
`exploring` otherwise (the remaining guards are not evaluated); else if
`energy < 20` then `resting`; else if `hunger < 50 ∧ energy > 50` then
`mating`; else `exploring`.  In particular hunger above 70 with no reachable
resource leaves the agent exploring even when `energy < 20`. -/
theorem exploring_transition_characterization (e : Engine) (i : ℕ) (a : Agent)
    (ha : e.agents[i]? = some a) (hst : a.state = AgentState.exploring)
    (hng : ¬(a.birthTick ≠ 0 ∧ (e.tick : ℤ) - (a.birthTick : ℤ) < 60)) :
    ((updateAgentState e i).agents[i]?).map Agent.state =
      some (if 70 < a.hunger then
              (if (findNearestIdx e a.x a.y).isSome then AgentState.eating
               else AgentState.exploring)
            else if a.energy < 20 then AgentState.resting
            else if a.hunger < 50 ∧ 50 < a.energy then AgentState.mating
            else AgentState.exploring) := by
  have hlen : i < e.agents.length := (List.getElem?_eq_some.mp ha).1
  unfold updateAgentState
  rw [ha]
  dsimp only
  rw [if_neg hng, hst]
  dsimp only
  rcases hfn : findNearestIdx e a.x a.y with _ | ⟨j, r⟩ <;>
    split_ifs <;>
      simp_all [setAgent, List.getElem?_set_eq_of_lt _ hlen, apply_ite Agent.state]

/-- Claim C6 witness: the transition characterization evaluated at a hungry
exploring agent with a reachable resource; it transitions to `eating`. -/
theorem exploring_transition_characterization_witness :
    ((updateAgentState eC6wit 0).agents[0]?).map Agent.state = some AgentState.eating := by
  have h := exploring_transition_characterization eC6wit 0 aC6 rfl rfl (by decide)
  rw [h]
  with_unfolding_all decide

theorem potentialMatesIdx_singleton (e : Engine) (a : Agent) (h : e.agents = [a]) :
    potentialMatesIdx e 0 = [] := by
  unfold potentialMatesIdx
  rw [h]
  simp [eligibleMate]

theorem checkMating_singleton_length (e : Engine) (rs : RS) (h : e.agents.length = 1) :
    (checkMatingCollisions e 0 rs).1.agents.length = 1 := by
  obtain ⟨a, ha⟩ := List.length_eq_one.mp h
  have h0 : e.agents[0]? = some a := by rw [ha]; rfl
  unfold checkMatingCollisions
  rw [h0, potentialMatesIdx_singleton e a ha]
  dsimp only
  split
  · exact h
  · unfold mateLoop
    dsimp only
    split
    · rw [h0]
      simp [setAgent, h]
    · exact h

theorem fusion_singleton_core (t : ℚ) (e1 : Engine) (rs : RS) (a : Agent)
    (h : e1.agents = [a]) :
    (List.range e1.agents.length).foldl (perAgentStep t) (e1, rs) =
      phaseFold (fun st i => (stressStep t st.1 i, st.2))
        (phaseFold (fun st i => (consumeStep t st.1 i, st.2))
          (phaseFold (fun st i => checkMatingCollisions st.1 i st.2)
            (phaseFold (fun st i => updateAgentMovement st.1 i t st.2)
              (phaseFold (fun st i => (updateAgentState st.1 i, st.2))
                (phaseFold (fun st i => (decayStep t st.1 i, st.2)) (e1, rs)))))) := by
  have hr1 : List.range 1 = [0] := rfl
  have h1 : e1.agents.length = 1 := by rw [h]; rfl
  have hd : (decayStep t e1 0).agents.length = 1 := by
    rw [(decayStep_frame t e1 0).2.2.2, h1]
  have hs : (updateAgentState (decayStep t e1 0) 0).agents.length = 1 := by
    rw [(updateAgentState_frame (decayStep t e1 0) 0).2.2.1, hd]
  have hm : (updateAgentMovement (updateAgentState (decayStep t e1 0) 0) 0 t
      rs).1.agents.length = 1 := by
    rw [(updateAgentMovement_frame (updateAgentState (decayStep t e1 0) 0) 0 t rs).2.2.2, hs]
  have hc : (checkMatingCollisions
      (updateAgentMovement (updateAgentState (decayStep t e1 0) 0) 0 t rs).1 0
      (updateAgentMovement (updateAgentState (decayStep t e1 0) 0) 0 t
        rs).2).1.agents.length = 1 :=
    checkMating_singleton_length _ _ hm
  have hcons : (consumeStep t (checkMatingCollisions
      (updateAgentMovement (updateAgentState (decayStep t e1 0) 0) 0 t rs).1 0
      (updateAgentMovement (updateAgentState (decayStep t e1 0) 0) 0 t
        rs).2).1 0).agents.length = 1 := by
    rw [(consumeStep_frame t _ 0).2.2.1, hc]
  unfold phaseFold
  rw [h1, hr1]
  simp only [List.foldl_cons, List.foldl_nil]
  rw [hd, hr1]
  simp only [List.foldl_cons, List.foldl_nil]
  rw [hs, hr1]
  simp only [List.foldl_cons, List.foldl_nil]
  rw [hm, hr1]
  simp only [List.foldl_cons, List.foldl_nil]
  rw [hc, hr1]
  simp only [List.foldl_cons, List.foldl_nil]
  rw [hcons, hr1]
  simp only [List.foldl_cons, List.foldl_nil]
  rfl

/-- Claim C3, counterexample.  At `eC3cex` (two agents on top of one 15-unit
resource), the engine's actual tick and the spec's whole-population phase
order produce different states: under the fused per-agent loop, agent 0's
opportunistic consumption empties the resource before agent 1's
state-transition query runs, so agent 1 stays `exploring`; under the phased
order agent 1's transition sees the stocked resource first recorded and it
becomes `eating`.  The phase decomposition claimed by the spec is therefore
not equivalent to `update()`. -/
theorem phase_order_counterexample :
    (update eC3cex rHalf).1.agents.map Agent.state ≠
      (updatePhased eC3cex rHalf).1.agents.map Agent.state := by
  with_unfolding_all decide

/-- Claim C3 (corrected): `update()` runs resource regeneration as a
whole-population phase, then ONE pass over the pre-tick population in storage
order applying decay, state transition, movement, mating check, opportunistic
consumption and stress decay to each agent in turn (all six steps for agent
`i` complete before any step of agent `i+1`), then the mortality sweep.
The spec's whole-population phase order is not equivalent in general (later
agents observe earlier agents' full-tick effects — see the counterexample);
the two orders do coincide for single-agent populations, where no cross-agent
interleaving exists. -/
theorem update_phase_fusion_singleton (e : Engine) (a : Agent) (rs : RS)
    (h : e.agents = [a]) : update e rs = updatePhased e rs := by
  unfold update updatePhased
  dsimp only
  have h' : (regenAll { e with tick := e.tick + 1 } e.params.timeScale).agents = [a] := h
  rw [fusion_singleton_core _ _ _ a h']

/-- Claim C3 witness: the singleton-population agreement evaluated at a
concrete one-agent engine. -/
theorem update_phase_fusion_singleton_witness :
    update eC3single rHalf = updatePhased eC3single rHalf :=
  update_phase_fusion_singleton eC3single
    { mkAgent 0 with hunger := 80, energy := 40 } rHalf rfl

/-- Claim C7, counterexample.  A lone healthy agent (hunger 50, stress 0,
time-scale 1) whose age is 1999 before `update()` does NOT survive the call:
aging runs before the mortality sweep, so its age becomes 2000 and the
`age ≥ 2000` condition removes it, incrementing `deaths.oldAge` to 1. -/
theorem age_1999_removed_counterexample :
    (update (eC7 1999) rHalf).1.agents = [] ∧
      (update (eC7 1999) rHalf).1.deathStats.oldAge = 1 := by
  refine ⟨?_, ?_⟩ <;> with_unfolding_all decide

/-- Claim C7 (corrected): with time-scale 1 the survival boundary is one tick
earlier than claimed.  A healthy agent aged 1998 before `update()` survives
with age 1999 and no old-age death recorded; an agent aged 2000 (like one
aged 1999, see the counterexample) is removed with `deaths.oldAge`
incremented by exactly 1 and no other cause counter touched. -/
theorem old_age_mortality_boundary :
    ((update (eC7 1998) rHalf).1.agents.map Agent.age = [1999] ∧
      (update (eC7 1998) rHalf).1.deathStats.oldAge = 0) ∧
    ((update (eC7 2000) rHalf).1.agents = [] ∧
      (update (eC7 2000) rHalf).1.deathStats.oldAge = 1 ∧
      (update (eC7 2000) rHalf).1.deathStats.starvation = 0 ∧
      (update (eC7 2000) rHalf).1.deathStats.stress = 0) := by
  refine ⟨⟨?_, ?_⟩, ?_, ?_, ?_, ?_⟩ <;> with_unfolding_all decide

end Universe25
